import Mathlib

/-!
# hotrod_rum frontend: handlers of `services/frontend/server.go`

A shallow embedding of the frontend `Server`: its routes (`createServeMux`), the
index handler with `getTemplate`, and the dispatch handler.

Go values are embedded as follows.

* an `error` is `Option String`: `none` is the nil error, `some m` an error whose
  `Error()` text is `m`;
* a Go pair `(v, err)` is a Lean pair;
* `http.ResponseWriter` is an explicit recorder state (`ResponseWriter`), threaded
  through the handlers;
* the collaborators a handler calls (form parsing, the ETA aggregator, `json.Marshal`,
  the bundled assets, the template engine) are fields of an environment record or of
  the request, and every call made is appended to a trace;
* a nil-pointer dereference ends the handler with `Outcome.panicked`.
-/

namespace Hotrod

/-! ## net/http: response writer -/

/-- The constant `http.StatusOK`. -/
def StatusOK : Nat := 200

/-- The constant `http.StatusBadRequest`. -/
def StatusBadRequest : Nat := 400

/-- The constant `http.StatusInternalServerError`. -/
def StatusInternalServerError : Nat := 500

/-- One method call received by a response writer. -/
inductive WCall where
  | headerSet (key value : String)
  | writeHeader (code : Nat)
  | write (data : String)
  deriving DecidableEq, Repr

/-- State of an `http.ResponseWriter`: the live header map, the status line once it has been
committed (`none` before), the headers as they were committed with it, the body bytes written so
far, and the calls received in order. -/
structure ResponseWriter where
  header : List (String × String)
  status : Option Nat
  sent : List (String × String)
  body : String
  calls : List WCall
  deriving DecidableEq, Repr

/-- A response writer on which nothing has been called yet. -/
def ResponseWriter.fresh : ResponseWriter :=
  { header := [], status := none, sent := [], body := "", calls := [] }

/-- The call `w.Header().Set(key, value)`: replaces the entry of `key`. -/
def ResponseWriter.HeaderSet (w : ResponseWriter) (key value : String) : ResponseWriter :=
  { w with
    header := (key, value) :: w.header.filter (fun kv => kv.1 != key)
    calls := w.calls ++ [WCall.headerSet key value] }

/-- Commits the status line and the current headers unless that has already happened. -/
def ResponseWriter.commit (w : ResponseWriter) (code : Nat) : ResponseWriter :=
  match w.status with
  | some _ => w
  | none => { w with status := some code, sent := w.header }

/-- The call `w.WriteHeader(code)`: only the first status is kept. -/
def ResponseWriter.WriteHeader (w : ResponseWriter) (code : Nat) : ResponseWriter :=
  { w.commit code with calls := w.calls ++ [WCall.writeHeader code] }

/-- The call `w.Write(data)`: a write before any `WriteHeader` commits status 200 first. -/
def ResponseWriter.Write (w : ResponseWriter) (data : String) : ResponseWriter :=
  let w1 := w.commit StatusOK
  { w1 with body := w1.body ++ data, calls := w.calls ++ [WCall.write data] }

/-- The status-line and body calls of a trace, header mutations dropped. -/
def terminalCalls (cs : List WCall) : List WCall :=
  cs.filter (fun c => match c with
    | WCall.headerSet _ _ => false
    | _ => true)

/-- The explicit `WriteHeader` calls of a trace. -/
def explicitStatuses (cs : List WCall) : List Nat :=
  cs.filterMap (fun c => match c with
    | WCall.writeHeader code => some code
    | _ => none)

/-- Value of a committed response header, as the client receives it. -/
def ResponseWriter.sentHeader (w : ResponseWriter) (key : String) : Option String :=
  w.sent.lookup key

/-- The function `http.Error` of the Go standard library: sets the plain-text content type and
the nosniff header, writes the status, then prints the message with `fmt.Fprintln`, that is,
followed by a line feed. -/
def httpError (w : ResponseWriter) (error : String) (code : Nat) : ResponseWriter :=
  let w := w.HeaderSet "Content-Type" "text/plain; charset=utf-8"
  let w := w.HeaderSet "X-Content-Type-Options" "nosniff"
  let w := w.WriteHeader code
  w.Write (error ++ "\n")

/-- Modelled from the spec: `httperr.HandleError` of `pkg/httperr`, which is not part of the
sources at hand. Section 4.5: if the error is nil, no side effect occurs and it returns false;
if non-nil, it writes the given status and the error message as the body, and returns true. -/
def HandleError (w : ResponseWriter) (err : Option String) (statusCode : Nat) :
    ResponseWriter × Bool :=
  match err with
  | none => (w, false)
  | some msg => ((w.WriteHeader statusCode).Write msg, true)

/-! ## Request, context and tracing values -/

/-- A `jaeger.TraceID`: two 64-bit halves. -/
structure TraceID where
  High : Nat
  Low : Nat
  deriving DecidableEq, Repr

/-- The dynamic type behind an `opentracing.SpanContext` interface value: either the
`jaeger.SpanContext` of the jaeger client, carrying its trace identifier, or anything else
(a span context of another tracer, or a nil interface). -/
inductive SpanContext where
  | jaeger (traceID : TraceID)
  | foreign
  deriving DecidableEq, Repr

/-- An `opentracing.Span`, observed through its `Context()` method. -/
structure Span where
  Context : SpanContext
  deriving DecidableEq, Repr

/-- The `context.Context` of a request, observed through the span stored in it. -/
structure Context where
  span : Option Span
  deriving DecidableEq, Repr

/-- The function `opentracing.SpanFromContext`: the stored span, or nil when there is none. -/
def SpanFromContext (ctx : Context) : Option Span :=
  ctx.span

/-- The type `url.Values`: a map from key to the list of its values. -/
abbrev Values := List (String × List String)

/-- The method `Get` of `url.Values`: the first value of the key, or the empty string. -/
def Values.Get (v : Values) (key : String) : String :=
  match v.lookup key with
  | none => ""
  | some [] => ""
  | some (x :: _) => x

/-- An `*http.Request`. `parseErr` and `Form` are what `r.ParseForm()` returns and leaves in
`r.Form` for this request (the form is populated with the pairs that did parse even when an
error is reported). -/
structure Request where
  Method : String
  URL : String
  ctx : Context
  parseErr : Option String
  Form : Values
  deriving DecidableEq, Repr

/-! ## Logging and collaborator traces -/

/-- Severity of a log entry. -/
inductive Level where
  | info
  | error
  deriving DecidableEq, Repr

/-- One entry written through `s.logger.For(ctx)`: the context it is tagged with, the
severity, the message and the structured fields. -/
structure LogEntry where
  ctx : Context
  level : Level
  msg : String
  fields : List (String × String)
  deriving DecidableEq, Repr

/-- The field `zap.Error(err)`. -/
def zapError (err : Option String) : List (String × String) :=
  match err with
  | none => []
  | some m => [("error", m)]

/-- A parsed `*template.Template`, identified by the text it was parsed from. -/
structure Template where
  text : String
  deriving DecidableEq, Repr

/-- The template context of the index page, a `map[string]string`. -/
abbrev TmplCtx := List (String × String)

/-- Assignment `m[key] = value` on a template context. -/
def TmplCtx.set (m : TmplCtx) (key value : String) : TmplCtx :=
  (key, value) :: m.filter (fun kv => kv.1 != key)

/-- One call a handler made to a collaborator. -/
inductive ExtCall where
  | parseForm
  | get (customerID : String)
  | marshal
  | fsString (name : String)
  | parse (text : String)
  | execute (tmpl : Option Template) (data : TmplCtx)
  deriving DecidableEq, Repr

/-- How a handler invocation ended. -/
inductive Outcome where
  | returned
  | panicked
  deriving DecidableEq, Repr

/-- Everything one handler invocation did: the response writer after it, the log entries, the
collaborator calls, and how it ended. -/
structure Handled where
  w : ResponseWriter
  logs : List LogEntry
  ext : List ExtCall
  outcome : Outcome
  deriving DecidableEq, Repr

/-! ## Dispatch handler -/

/-- The collaborators of `dispatch`: `s.bestETA.Get` and `json.Marshal` on its response type. -/
structure DispatchEnv (Resp : Type) where
  Get : Context → String → Resp × Option String
  Marshal : Resp → String × Option String

/-- The handler `Server.dispatch`. -/
def dispatch {Resp : Type} (env : DispatchEnv Resp) (w : ResponseWriter) (r : Request) :
    Handled :=
  let ctx := r.ctx
  let logs : List LogEntry :=
    [⟨ctx, Level.info, "HTTP request received", [("method", r.Method), ("url", r.URL)]⟩]
  let err := r.parseErr
  let ext := [ExtCall.parseForm]
  match HandleError w err StatusBadRequest with
  | (w, true) =>
    ⟨w, logs ++ [⟨ctx, Level.error, "bad request", zapError err⟩], ext, Outcome.returned⟩
  | (w, false) =>
    let customerID := Values.Get r.Form "customer"
    if customerID = "" then
      ⟨httpError w "Missing required 'customer' parameter" StatusBadRequest,
        logs, ext, Outcome.returned⟩
    else
      let (response, err) := env.Get ctx customerID
      let ext := ext ++ [ExtCall.get customerID]
      match HandleError w err StatusInternalServerError with
      | (w, true) =>
        ⟨w, logs ++ [⟨ctx, Level.error, "request failed", zapError err⟩], ext, Outcome.returned⟩
      | (w, false) =>
        let (data, err) := env.Marshal response
        let ext := ext ++ [ExtCall.marshal]
        match HandleError w err StatusInternalServerError with
        | (w, true) =>
          ⟨w, logs ++ [⟨ctx, Level.error, "cannot marshal response", zapError err⟩], ext,
            Outcome.returned⟩
        | (w, false) =>
          let w := w.HeaderSet "Content-Type" "application/json"
          let w := w.Write data
          ⟨w, logs, ext, Outcome.returned⟩

/-- The `Get` calls in a collaborator trace. -/
def getCalls (cs : List ExtCall) : List String :=
  cs.filterMap (fun c => match c with
    | ExtCall.get customerID => some customerID
    | _ => none)

/-- A sample aggregator and serializer over string responses, used to instantiate the
theorems: `Get` fails for the customer `"731"` and answers `eta:<id>` otherwise; `Marshal`
quotes its argument. -/
def sampleEnv : DispatchEnv String where
  Get := fun _ customerID =>
    if customerID = "731" then ("", some "invalid customer ID") else ("eta:" ++ customerID, none)
  Marshal := fun s => ("\"" ++ s ++ "\"", none)

/-- A decoder inverting `sampleEnv.Marshal` on the response `eta:123`. -/
def sampleDecode (body : String) : Option String :=
  if body = "\"eta:123\"" then some "eta:123" else none

/-- A request whose form parsed, with the given form values. -/
def sampleRequest (form : Values) : Request :=
  { Method := "GET", URL := "/dispatch", ctx := ⟨none⟩, parseErr := none, Form := form }

/-- A request whose form failed to parse, with the given error text. -/
def badFormRequest (msg : String) (form : Values) : Request :=
  { Method := "GET", URL := "/dispatch?customer=%zz", ctx := ⟨none⟩, parseErr := some msg,
    Form := form }

/-! ## Index handler -/

/-- The collaborators of `index` and `getTemplate`: `FSString` of the generated asset bundle
(`gen_assets.go`, not part of the sources at hand), `template.New("").Parse` (which yields
either a template or an error), what `Execute` of a parsed template writes and returns for a
given context, and the `String` method of `jaeger.TraceID`. -/
structure IndexEnv where
  FSString : Bool → String → String × Option String
  Parse : String → Except String Template
  Render : Template → TmplCtx → List String × Option String
  TraceIDString : TraceID → String

/-- What `getTemplate` returns, a `(*template.Template, error)` pair with nil as `none`,
together with the log entries and collaborator calls it made. -/
structure TemplateResult where
  tmpl : Option Template
  err : Option String
  logs : List LogEntry
  ext : List ExtCall
  deriving DecidableEq, Repr

/-- The method `Server.getTemplate`. -/
def getTemplate (env : IndexEnv) (ctx : Context) (name : String) : TemplateResult :=
  match env.FSString false name with
  | (_, some err) =>
    ⟨none, some err, [⟨ctx, Level.error, "could not find template", zapError (some err)⟩],
      [ExtCall.fsString name]⟩
  | (name1, none) =>
    match env.Parse name1 with
    | Except.error err =>
      ⟨none, some err, [⟨ctx, Level.error, "could not parse template", zapError (some err)⟩],
        [ExtCall.fsString name, ExtCall.parse name1]⟩
    | Except.ok t =>
      ⟨some t, none, [], [ExtCall.fsString name, ExtCall.parse name1]⟩

/-- The method `(*template.Template).Execute`. On a nil receiver the first field access
dereferences nil, a runtime panic that the template engine does not recover: the result is
`none`. On a parsed template the rendered chunks are written to the response writer and the
error of the rendering is returned. -/
def Execute (env : IndexEnv) (tmpl : Option Template) (w : ResponseWriter) (data : TmplCtx) :
    Option (ResponseWriter × Option String) :=
  match tmpl with
  | none => none
  | some t =>
    let (chunks, err) := env.Render t data
    some (chunks.foldl ResponseWriter.Write w, err)

/-- The handler `Server.index`. The error of `getTemplate` is overwritten without being read.
`span.Context()` on the nil span that `SpanFromContext` returns for a context without span is
a method call on a nil interface, a runtime panic. -/
def index (env : IndexEnv) (w : ResponseWriter) (r : Request) : Handled :=
  let ctx := r.ctx
  let g := getTemplate env ctx "/index.html"
  let tmplCtx : TmplCtx := []
  match SpanFromContext ctx with
  | none => ⟨w, g.logs, g.ext, Outcome.panicked⟩
  | some span =>
    let tmplCtx :=
      match span.Context with
      | SpanContext.jaeger traceID => TmplCtx.set tmplCtx "traceID" (env.TraceIDString traceID)
      | SpanContext.foreign => tmplCtx
    let ext := g.ext ++ [ExtCall.execute g.tmpl tmplCtx]
    match Execute env g.tmpl w tmplCtx with
    | none => ⟨w, g.logs, ext, Outcome.panicked⟩
    | some (w, some err) =>
      ⟨w, g.logs ++ [⟨ctx, Level.error, "could not execute template", zapError (some err)⟩],
        ext, Outcome.returned⟩
    | some (w, none) => ⟨w, g.logs, ext, Outcome.returned⟩

/-- The `Execute` calls in a collaborator trace: receiver and template context. -/
def executeCalls (cs : List ExtCall) : List (Option Template × TmplCtx) :=
  cs.filterMap (fun c => match c with
    | ExtCall.execute tmpl data => some (tmpl, data)
    | _ => none)

/-- A sample asset bundle and template engine: the bundle holds `/index.html` and
`/broken.html`, the text of the latter does not parse, rendering replaces nothing and writes
the text followed by the trace identifier when the context has one, and a trace identifier
prints as the decimal digits of its low half. -/
def sampleIndexEnv : IndexEnv where
  FSString := fun _ name =>
    if name = "/index.html" then ("<html>trace:</html>", none)
    else if name = "/broken.html" then ("<html>\x7b\x7b</html>", none)
    else ("", some "file does not exist")
  Parse := fun text =>
    if text = "<html>\x7b\x7b</html>" then Except.error "template: unclosed action"
    else Except.ok ⟨text⟩
  Render := fun t data =>
    match data.lookup "traceID" with
    | some id => ([t.text, id], none)
    | none => ([t.text], none)
  TraceIDString := fun id => toString id.Low

/-- The sample bundle without `/index.html`. -/
def emptyIndexEnv : IndexEnv :=
  { sampleIndexEnv with FSString := fun _ _ => ("", some "file does not exist") }

/-- An index request whose context holds the given span, or none. -/
def indexRequest (span : Option Span) : Request :=
  { Method := "GET", URL := "/", ctx := ⟨span⟩, parseErr := none, Form := [] }

/-! ## Package path: Clean and Join -/

/-- The backtracking of `path.Clean` on a `..` element,
`out.w--; for out.w > dotdot && out.index(out.w) != '/' { out.w-- }`, on the output buffer held
in reverse (last byte first): the byte at index `out.w` after a decrement is the byte just
dropped. -/
def backtrack (dotdot : Nat) : List Char → List Char
  | [] => []
  | c :: rout => if rout.length > dotdot ∧ c ≠ '/' then backtrack dotdot rout else rout

/-- The main loop `for r < n` of `path.Clean`. `rest` is `path[r:]`, `rout` the bytes written to
the output buffer so far, in reverse, and `dotdot` the index below which the buffer may not be
backtracked. Every round consumes at least one byte, so `fuel = len(path)` rounds suffice
(`cleanLoop_fuel`). -/
def cleanLoop (rooted : Bool) : Nat → List Char → List Char → Nat → List Char
  | 0, _, rout, _ => rout
  | _ + 1, [], rout, _ => rout
  | fuel + 1, c :: rest, rout, dotdot =>
    if c = '/' then
      -- empty path element
      cleanLoop rooted fuel rest rout dotdot
    else if c = '.' ∧ (rest = [] ∨ rest.head? = some '/') then
      -- . element
      cleanLoop rooted fuel rest rout dotdot
    else if c = '.' ∧ rest.head? = some '.'
        ∧ (rest.tail = [] ∨ rest.tail.head? = some '/') then
      -- .. element: remove to last /
      if rout.length > dotdot then
        cleanLoop rooted fuel rest.tail (backtrack dotdot rout) dotdot
      else if rooted = false then
        let rout1 := if rout.length > 0 then '/' :: rout else rout
        let rout2 := '.' :: '.' :: rout1
        cleanLoop rooted fuel rest.tail rout2 rout2.length
      else
        cleanLoop rooted fuel rest.tail rout dotdot
    else
      -- real path element: add slash if needed, copy element
      let rout1 :=
        if (rooted = true ∧ rout.length ≠ 1) ∨ (rooted = false ∧ rout.length ≠ 0) then
          '/' :: rout
        else rout
      cleanLoop rooted fuel (rest.dropWhile (fun x => x != '/'))
        ((c :: rest.takeWhile (fun x => x != '/')).reverse ++ rout1) dotdot

/-- The function `path.Clean` on the bytes of a path. -/
def cleanChars (path : List Char) : List Char :=
  if path = [] then ['.']
  else
    let rooted : Bool := path.head? = some '/'
    let n := path.length
    let rout :=
      if rooted then cleanLoop rooted n path.tail ['/'] 1
      else cleanLoop rooted n path [] 0
    if rout.length = 0 then ['.'] else rout.reverse

/-- The function `path.Clean`. -/
def Clean (path : String) : String :=
  ⟨cleanChars path.data⟩

/-- The function `strings.Join`. -/
def stringsJoin : List String → String → String
  | [], _ => ""
  | [e], _ => e
  | e :: rest, sep => e ++ sep ++ stringsJoin rest sep

/-- The function `path.Join`: the elements from the first non-empty one on are joined with
slashes and the result is cleaned; with no non-empty element the result is empty. -/
def Join : List String → String
  | [] => ""
  | e :: rest => if e ≠ "" then Clean (stringsJoin (e :: rest) "/") else Join rest

/-- The loop of `path.Clean` run with exactly as many rounds as bytes are left. -/
def run (rooted : Bool) (rest rout : List Char) (dotdot : Nat) : List Char :=
  cleanLoop rooted rest.length rest rout dotdot

/-- A reversed output buffer whose first written byte is a slash and in which no two slashes
are adjacent. -/
def slashBottomed : List Char → Prop
  | [] => False
  | [a] => a = '/'
  | a :: b :: t => (a ≠ '/' ∨ b ≠ '/') ∧ slashBottomed (b :: t)

/-- The shape of the reversed output buffer while `path.Clean` works on a rooted path: it is
the root alone or does not end in a slash, starts with a slash and has no empty element. -/
def RootedBuf (rout : List Char) : Prop :=
  (rout = ['/'] ∨ rout.head? ≠ some '/') ∧ slashBottomed rout

/-! ## Routes -/

/-- The handlers of the frontend server. -/
inductive Handler where
  | index
  | dispatch
  deriving DecidableEq, Repr

/-- The fields of `Server` that the routes depend on. -/
structure Server where
  hostPort : String
  basepath : String
  deriving DecidableEq, Repr

/-- The method `Server.createServeMux`, with the mux observed as the list of its `Handle`
registrations in order: pattern and handler. -/
def createServeMux (s : Server) : List (String × Handler) :=
  let mux : List (String × Handler) := []
  let p := Join ["/", s.basepath]
  let mux := mux ++ [(Join [p, "/"], Handler.index)]
  let mux := mux ++ [(Join [p, "/dispatch"], Handler.dispatch)]
  mux

/-! ## Theorems: dispatch -/

/-- C1: when the form parses, the customer parameter is non-empty, the aggregator returns a
response without error and that response serializes, dispatch writes no explicit status (the
write commits 200), sends Content-Type application/json, and the body is exactly the serialized
response, so a decoder that inverts the serializer on it recovers the response. -/
theorem dispatch_success {Resp : Type} (env : DispatchEnv Resp) (r : Request) (resp : Resp)
    (data : String) (decode : String → Option Resp)
    (hparse : r.parseErr = none)
    (hcust : Values.Get r.Form "customer" ≠ "")
    (hget : env.Get r.ctx (Values.Get r.Form "customer") = (resp, none))
    (hmar : env.Marshal resp = (data, none))
    (hdec : decode data = some resp) :
    (dispatch env ResponseWriter.fresh r).w.status = some 200
      ∧ explicitStatuses (dispatch env ResponseWriter.fresh r).w.calls = []
      ∧ (dispatch env ResponseWriter.fresh r).w.sentHeader "Content-Type"
          = some "application/json"
      ∧ (dispatch env ResponseWriter.fresh r).w.body = data
      ∧ decode (dispatch env ResponseWriter.fresh r).w.body = some resp
      ∧ (dispatch env ResponseWriter.fresh r).outcome = Outcome.returned := by
  simp [dispatch, HandleError, hparse, hcust, hget, hmar, hdec, ResponseWriter.fresh,
    ResponseWriter.HeaderSet, ResponseWriter.Write, ResponseWriter.commit,
    ResponseWriter.sentHeader, explicitStatuses, StatusOK]

/-- Witness of C1 on the sample environment with customer 123. -/
theorem dispatch_success_witness :
    (dispatch sampleEnv ResponseWriter.fresh (sampleRequest [("customer", ["123"])])).w.status
        = some 200
      ∧ (dispatch sampleEnv ResponseWriter.fresh (sampleRequest [("customer", ["123"])])).w.body
        = "\"eta:123\"" := by
  have h := dispatch_success sampleEnv (sampleRequest [("customer", ["123"])]) "eta:123"
    "\"eta:123\"" sampleDecode (by decide) (by decide) (by decide) (by decide) (by decide)
  exact ⟨h.1, h.2.2.2.1⟩

/-- C2, refuted as stated. A request without customer parameter whose form failed to parse is
answered with the parse error as body, and one whose form parsed is answered with the literal
text followed by a line feed (what http.Error prints): in neither case is the body equal to the
literal text. -/
theorem dispatch_missing_customer_body_counterexample :
    Values.Get (badFormRequest "invalid URL escape \"%zz\"" []).Form "customer" = ""
      ∧ (dispatch sampleEnv ResponseWriter.fresh
            (badFormRequest "invalid URL escape \"%zz\"" [])).w.body
          = "invalid URL escape \"%zz\""
      ∧ (dispatch sampleEnv ResponseWriter.fresh
            (badFormRequest "invalid URL escape \"%zz\"" [])).w.body
          ≠ "Missing required 'customer' parameter"
      ∧ Values.Get (sampleRequest [("other", ["x"])]).Form "customer" = ""
      ∧ (dispatch sampleEnv ResponseWriter.fresh (sampleRequest [("other", ["x"])])).w.body
          = "Missing required 'customer' parameter\n"
      ∧ (dispatch sampleEnv ResponseWriter.fresh (sampleRequest [("other", ["x"])])).w.body
          ≠ "Missing required 'customer' parameter" := by
  decide

/-- C2, amended: when the form parses and the customer parameter is absent or empty, whatever
other fields the form holds, dispatch answers status 400 (the only status written) with body the
literal text followed by a line feed, and the aggregator is not invoked. -/
theorem dispatch_missing_customer {Resp : Type} (env : DispatchEnv Resp) (r : Request)
    (hparse : r.parseErr = none)
    (hcust : Values.Get r.Form "customer" = "") :
    (dispatch env ResponseWriter.fresh r).w.status = some 400
      ∧ explicitStatuses (dispatch env ResponseWriter.fresh r).w.calls = [400]
      ∧ (dispatch env ResponseWriter.fresh r).w.body
          = "Missing required 'customer' parameter\n"
      ∧ getCalls (dispatch env ResponseWriter.fresh r).ext = []
      ∧ (dispatch env ResponseWriter.fresh r).outcome = Outcome.returned := by
  simp [dispatch, HandleError, hparse, hcust, httpError, ResponseWriter.fresh,
    ResponseWriter.HeaderSet, ResponseWriter.Write, ResponseWriter.WriteHeader,
    ResponseWriter.commit, explicitStatuses, getCalls, StatusBadRequest]

/-- Witness of the amended C2: a parsed form holding other fields but no customer. -/
theorem dispatch_missing_customer_witness :
    (dispatch sampleEnv ResponseWriter.fresh
        (sampleRequest [("other", ["x"]), ("customer", [""])])).w.status = some 400
      ∧ getCalls (dispatch sampleEnv ResponseWriter.fresh
        (sampleRequest [("other", ["x"]), ("customer", [""])])).ext = [] := by
  have h := dispatch_missing_customer sampleEnv
    (sampleRequest [("other", ["x"]), ("customer", [""])]) (by decide) (by decide)
  exact ⟨h.1, h.2.2.2.1⟩

/-- C3: when the form parses, the customer parameter is non-empty and the aggregator returns the
error E, dispatch answers status 500 with body equal to the message of E; the serializer is not
called, the only body write is that message, and no Content-Type application/json is sent. -/
theorem dispatch_aggregator_error {Resp : Type} (env : DispatchEnv Resp) (r : Request)
    (resp : Resp) (E : String)
    (hparse : r.parseErr = none)
    (hcust : Values.Get r.Form "customer" ≠ "")
    (hget : env.Get r.ctx (Values.Get r.Form "customer") = (resp, some E)) :
    (dispatch env ResponseWriter.fresh r).w.status = some 500
      ∧ (dispatch env ResponseWriter.fresh r).w.body = E
      ∧ (dispatch env ResponseWriter.fresh r).w.calls
          = [WCall.writeHeader 500, WCall.write E]
      ∧ ExtCall.marshal ∉ (dispatch env ResponseWriter.fresh r).ext
      ∧ (dispatch env ResponseWriter.fresh r).w.sentHeader "Content-Type" = none
      ∧ (dispatch env ResponseWriter.fresh r).w.header.lookup "Content-Type" = none := by
  simp [dispatch, HandleError, hparse, hcust, hget, ResponseWriter.fresh,
    ResponseWriter.Write, ResponseWriter.WriteHeader, ResponseWriter.commit,
    ResponseWriter.sentHeader, StatusInternalServerError]

/-- Witness of C3: the sample aggregator rejects customer 731. -/
theorem dispatch_aggregator_error_witness :
    (dispatch sampleEnv ResponseWriter.fresh (sampleRequest [("customer", ["731"])])).w.status
        = some 500
      ∧ (dispatch sampleEnv ResponseWriter.fresh (sampleRequest [("customer", ["731"])])).w.body
        = "invalid customer ID" := by
  have h := dispatch_aggregator_error sampleEnv (sampleRequest [("customer", ["731"])]) ""
    "invalid customer ID" (by decide) (by decide) (by decide)
  exact ⟨h.1, h.2.1⟩

/-- C4: when form parsing reports an error, dispatch answers status 400 and stops: whatever the
form holds for the customer parameter, the aggregator and the serializer are never called, the
only writes are the status and the error text, and no Content-Type application/json is sent. -/
theorem dispatch_bad_form {Resp : Type} (env : DispatchEnv Resp) (r : Request) (e : String)
    (hparse : r.parseErr = some e) :
    (dispatch env ResponseWriter.fresh r).w.status = some 400
      ∧ (dispatch env ResponseWriter.fresh r).ext = [ExtCall.parseForm]
      ∧ getCalls (dispatch env ResponseWriter.fresh r).ext = []
      ∧ (dispatch env ResponseWriter.fresh r).w.calls
          = [WCall.writeHeader 400, WCall.write e]
      ∧ (dispatch env ResponseWriter.fresh r).w.sentHeader "Content-Type" = none
      ∧ (dispatch env ResponseWriter.fresh r).outcome = Outcome.returned := by
  simp [dispatch, HandleError, hparse, ResponseWriter.fresh,
    ResponseWriter.Write, ResponseWriter.WriteHeader, ResponseWriter.commit,
    ResponseWriter.sentHeader, getCalls, StatusBadRequest]

/-- Witness of C4: a form with an invalid percent-encoding and a customer value. -/
theorem dispatch_bad_form_witness :
    (dispatch sampleEnv ResponseWriter.fresh
        (badFormRequest "invalid URL escape \"%zz\"" [("customer", ["123"])])).w.status
        = some 400
      ∧ getCalls (dispatch sampleEnv ResponseWriter.fresh
        (badFormRequest "invalid URL escape \"%zz\"" [("customer", ["123"])])).ext = [] := by
  have h := dispatch_bad_form sampleEnv
    (badFormRequest "invalid URL escape \"%zz\"" [("customer", ["123"])])
    "invalid URL escape \"%zz\"" (by decide)
  exact ⟨h.1, h.2.2.1⟩

/-- C5: on every request and for every outcome of form parsing, of the aggregator and of the
serializer, the status-line and body calls dispatch makes on the response writer are either one
error write (a status, 400 or 500, followed by one message) or one success write (a single body
write with no explicit status, sent as application/json), never both; the aggregator is called
at most once and the handler returns. -/
theorem dispatch_terminates_response_once {Resp : Type} (env : DispatchEnv Resp)
    (r : Request) :
    ((∃ code msg, (code = 400 ∨ code = 500)
          ∧ terminalCalls (dispatch env ResponseWriter.fresh r).w.calls
            = [WCall.writeHeader code, WCall.write msg])
        ∨ (∃ data, terminalCalls (dispatch env ResponseWriter.fresh r).w.calls
            = [WCall.write data]
          ∧ (dispatch env ResponseWriter.fresh r).w.sentHeader "Content-Type"
            = some "application/json"))
      ∧ ¬ ((∃ code msg, terminalCalls (dispatch env ResponseWriter.fresh r).w.calls
            = [WCall.writeHeader code, WCall.write msg])
        ∧ (∃ data, terminalCalls (dispatch env ResponseWriter.fresh r).w.calls
            = [WCall.write data]))
      ∧ (getCalls (dispatch env ResponseWriter.fresh r).ext).length ≤ 1
      ∧ (dispatch env ResponseWriter.fresh r).outcome = Outcome.returned := by
  refine ⟨?_, ?_, ?_, ?_⟩
  · cases hp : r.parseErr with
    | some e =>
      simp [dispatch, HandleError, hp, ResponseWriter.fresh, ResponseWriter.Write,
        ResponseWriter.WriteHeader, ResponseWriter.commit, terminalCalls, StatusBadRequest]
    | none =>
      by_cases hc : Values.Get r.Form "customer" = ""
      · simp [dispatch, HandleError, hp, hc, httpError, ResponseWriter.fresh,
          ResponseWriter.HeaderSet, ResponseWriter.Write, ResponseWriter.WriteHeader,
          ResponseWriter.commit, terminalCalls, StatusBadRequest]
      · rcases hg : env.Get r.ctx (Values.Get r.Form "customer") with ⟨resp, ge⟩
        cases ge with
        | some e =>
          simp [dispatch, HandleError, hp, hc, hg, ResponseWriter.fresh, ResponseWriter.Write,
            ResponseWriter.WriteHeader, ResponseWriter.commit, terminalCalls,
            StatusInternalServerError]
        | none =>
          rcases hm : env.Marshal resp with ⟨data, me⟩
          cases me with
          | some e =>
            simp [dispatch, HandleError, hp, hc, hg, hm, ResponseWriter.fresh,
              ResponseWriter.Write, ResponseWriter.WriteHeader, ResponseWriter.commit,
              terminalCalls, StatusInternalServerError]
          | none =>
            simp [dispatch, HandleError, hp, hc, hg, hm, ResponseWriter.fresh,
              ResponseWriter.HeaderSet, ResponseWriter.Write, ResponseWriter.commit,
              ResponseWriter.sentHeader, terminalCalls, StatusOK]
  · rintro ⟨⟨code, msg, h1⟩, ⟨data, h2⟩⟩
    rw [h1] at h2
    simp at h2
  · cases hp : r.parseErr with
    | some e => simp [dispatch, HandleError, hp, getCalls]
    | none =>
      by_cases hc : Values.Get r.Form "customer" = ""
      · simp [dispatch, HandleError, hp, hc, getCalls]
      · rcases hg : env.Get r.ctx (Values.Get r.Form "customer") with ⟨resp, ge⟩
        cases ge with
        | some e => simp [dispatch, HandleError, hp, hc, hg, getCalls]
        | none =>
          rcases hm : env.Marshal resp with ⟨data, me⟩
          cases me <;> simp [dispatch, HandleError, hp, hc, hg, hm, getCalls]
  · cases hp : r.parseErr with
    | some e => simp [dispatch, HandleError, hp]
    | none =>
      by_cases hc : Values.Get r.Form "customer" = ""
      · simp [dispatch, HandleError, hp, hc]
      · rcases hg : env.Get r.ctx (Values.Get r.Form "customer") with ⟨resp, ge⟩
        cases ge with
        | some e => simp [dispatch, HandleError, hp, hc, hg]
        | none =>
          rcases hm : env.Marshal resp with ⟨data, me⟩
          cases me <;> simp [dispatch, HandleError, hp, hc, hg, hm]

/-! ## Theorems: index and getTemplate -/

/-- A failing `getTemplate` returns the nil template. -/
theorem getTemplate_tmpl_none_of_err (env : IndexEnv) (ctx : Context) (name : String)
    (h : (getTemplate env ctx name).err ≠ none) : (getTemplate env ctx name).tmpl = none := by
  unfold getTemplate at h ⊢
  rcases hf : env.FSString false name with ⟨text, fe⟩
  cases fe with
  | some e => simp
  | none =>
    cases hp : env.Parse text with
    | error e => simp [hp]
    | ok t => simp [hf, hp] at h

/-- The method `getTemplate` never calls `Execute`. -/
theorem getTemplate_executeCalls (env : IndexEnv) (ctx : Context) (name : String) :
    executeCalls (getTemplate env ctx name).ext = [] := by
  unfold getTemplate
  rcases hf : env.FSString false name with ⟨text, fe⟩
  cases fe with
  | some e => simp [executeCalls]
  | none => cases hp : env.Parse text <;> simp [executeCalls, hp]

/-- With a span in the context, `index` makes the calls of `getTemplate` and then one call of
`Execute`, on the template it got and the context built from the span. -/
theorem index_ext_of_span (env : IndexEnv) (w : ResponseWriter) (r : Request) (sp : Span)
    (hspan : r.ctx.span = some sp) :
    (index env w r).ext
      = (getTemplate env r.ctx "/index.html").ext
        ++ [ExtCall.execute (getTemplate env r.ctx "/index.html").tmpl
            (match sp.Context with
              | SpanContext.jaeger traceID =>
                TmplCtx.set [] "traceID" (env.TraceIDString traceID)
              | SpanContext.foreign => [])] := by
  simp only [index, SpanFromContext, hspan]
  split
  · rfl
  · rfl
  · rfl

/-- C7: for an index request whose context holds a span, Execute is called once, with the
template getTemplate returned and a template context that has the key traceID exactly when the
context of that span is a jaeger span context; the value is then the string form of the trace
identifier of that span, and the context has no other key. -/
theorem index_traceID_of_request_span (env : IndexEnv) (w : ResponseWriter) (r : Request)
    (sp : Span) (hspan : r.ctx.span = some sp) :
    ∃ d : TmplCtx,
      executeCalls (index env w r).ext
          = [((getTemplate env r.ctx "/index.html").tmpl, d)]
        ∧ (d.lookup "traceID" ≠ none ↔ ∃ id, sp.Context = SpanContext.jaeger id)
        ∧ (∀ id, sp.Context = SpanContext.jaeger id
            → d.lookup "traceID" = some (env.TraceIDString id))
        ∧ (∀ k, k ≠ "traceID" → d.lookup k = none)
        ∧ d.length ≤ 1 := by
  have hext := getTemplate_executeCalls env r.ctx "/index.html"
  have hidx := index_ext_of_span env w r sp hspan
  cases hc : sp.Context with
  | jaeger id =>
    refine ⟨[("traceID", env.TraceIDString id)], ?_, ?_, ?_, ?_, ?_⟩
    · rw [hidx, hc]
      simp only [executeCalls, List.filterMap_append] at hext ⊢
      rw [hext]
      simp [TmplCtx.set]
    · simp [List.lookup]
    · intro id1 h1
      simp at h1
      simp [List.lookup, h1]
    · intro k hk
      have hk1 : (k == "traceID") = false := by simpa using hk
      simp [List.lookup, hk1]
    · simp
  | foreign =>
    refine ⟨[], ?_, ?_, ?_, ?_, ?_⟩
    · rw [hidx, hc]
      simp only [executeCalls, List.filterMap_append] at hext ⊢
      rw [hext]
      simp
    · simp
    · intro id1 h1
      simp at h1
    · intro k _
      simp
    · simp

/-- Witness of C7: a jaeger span with trace identifier 42 on the sample bundle. -/
theorem index_traceID_of_request_span_witness :
    ∃ d : TmplCtx,
      executeCalls (index sampleIndexEnv ResponseWriter.fresh
          (indexRequest (some ⟨SpanContext.jaeger ⟨0, 42⟩⟩))).ext
          = [(some ⟨"<html>trace:</html>"⟩, d)]
        ∧ d.lookup "traceID" = some "42" := by
  obtain ⟨d, h1, _, h3, _, _⟩ := index_traceID_of_request_span sampleIndexEnv
    ResponseWriter.fresh (indexRequest (some ⟨SpanContext.jaeger ⟨0, 42⟩⟩))
    ⟨SpanContext.jaeger ⟨0, 42⟩⟩ rfl
  exact ⟨d, h1, h3 ⟨0, 42⟩ rfl⟩

/-- C8, refuted as stated. An index request whose context holds no span, served from a bundle
whose template loads and parses, does not render: the handler panics on the nil span, Execute
is never called and nothing is written to the response. -/
theorem index_no_span_counterexample :
    (indexRequest none).ctx.span = none
      ∧ (index sampleIndexEnv ResponseWriter.fresh (indexRequest none)).outcome
          = Outcome.panicked
      ∧ executeCalls (index sampleIndexEnv ResponseWriter.fresh (indexRequest none)).ext = []
      ∧ (index sampleIndexEnv ResponseWriter.fresh (indexRequest none)).w.body = ""
      ∧ (index sampleIndexEnv ResponseWriter.fresh (indexRequest none)).w.calls = [] := by
  decide

/-- C8, amended: for every index request whose context holds no span, the handler does not
render the page: after getTemplate it panics on the nil span, Execute is not called, and the
response writer is left as it was. -/
theorem index_no_span_panics (env : IndexEnv) (w : ResponseWriter) (r : Request)
    (hspan : r.ctx.span = none) :
    (index env w r).outcome = Outcome.panicked
      ∧ executeCalls (index env w r).ext = []
      ∧ (index env w r).ext = (getTemplate env r.ctx "/index.html").ext
      ∧ (index env w r).w = w := by
  have hext := getTemplate_executeCalls env r.ctx "/index.html"
  simp [index, SpanFromContext, hspan, hext]

/-- Witness of the amended C8 on the sample bundle. -/
theorem index_no_span_panics_witness :
    (index sampleIndexEnv ResponseWriter.fresh (indexRequest none)).outcome = Outcome.panicked
      ∧ (index sampleIndexEnv ResponseWriter.fresh (indexRequest none)).w
          = ResponseWriter.fresh := by
  have h := index_no_span_panics sampleIndexEnv ResponseWriter.fresh (indexRequest none) rfl
  exact ⟨h.1, h.2.2.2⟩

/-- C9: getTemplate returns a template exactly when it returns no error. If the asset lookup
fails it returns the nil template with the lookup error, makes no parse call and logs one
error-level entry; if the lookup succeeds and parsing fails it returns the nil template with
the parse error and logs one error-level entry; otherwise it returns the parsed template with
the nil error and logs nothing. -/
theorem getTemplate_template_xor_error (env : IndexEnv) (ctx : Context) (name : String) :
    ((getTemplate env ctx name).tmpl ≠ none ↔ (getTemplate env ctx name).err = none)
      ∧ (∀ text e, env.FSString false name = (text, some e) →
          (getTemplate env ctx name).tmpl = none
            ∧ (getTemplate env ctx name).err = some e
            ∧ (getTemplate env ctx name).ext = [ExtCall.fsString name]
            ∧ (getTemplate env ctx name).logs
                = [⟨ctx, Level.error, "could not find template", [("error", e)]⟩])
      ∧ (∀ text e, env.FSString false name = (text, none) → env.Parse text = Except.error e →
          (getTemplate env ctx name).tmpl = none
            ∧ (getTemplate env ctx name).err = some e
            ∧ (getTemplate env ctx name).ext = [ExtCall.fsString name, ExtCall.parse text]
            ∧ (getTemplate env ctx name).logs
                = [⟨ctx, Level.error, "could not parse template", [("error", e)]⟩])
      ∧ (∀ text t, env.FSString false name = (text, none) → env.Parse text = Except.ok t →
          (getTemplate env ctx name).tmpl = some t
            ∧ (getTemplate env ctx name).err = none
            ∧ (getTemplate env ctx name).ext = [ExtCall.fsString name, ExtCall.parse text]
            ∧ (getTemplate env ctx name).logs = []) := by
  refine ⟨?_, ?_, ?_, ?_⟩
  · unfold getTemplate
    rcases hf : env.FSString false name with ⟨text, fe⟩
    cases fe with
    | some e => simp
    | none => cases hp : env.Parse text <;> simp [hp]
  · intro text e hf
    simp [getTemplate, hf, zapError]
  · intro text e hf hp
    simp [getTemplate, hf, hp, zapError]
  · intro text t hf hp
    simp [getTemplate, hf, hp]

/-- Witness of C9 on the sample bundle: a missing asset, an asset that does not parse, and
the index page. -/
theorem getTemplate_template_xor_error_witness :
    (getTemplate sampleIndexEnv ⟨none⟩ "/missing.html").tmpl = none
      ∧ (getTemplate sampleIndexEnv ⟨none⟩ "/missing.html").err = some "file does not exist"
      ∧ (getTemplate sampleIndexEnv ⟨none⟩ "/broken.html").err
          = some "template: unclosed action"
      ∧ (getTemplate sampleIndexEnv ⟨none⟩ "/index.html").tmpl
          = some ⟨"<html>trace:</html>"⟩ := by
  have h1 := (getTemplate_template_xor_error sampleIndexEnv ⟨none⟩ "/missing.html").2.1
    "" "file does not exist" (by decide)
  have h2 := (getTemplate_template_xor_error sampleIndexEnv ⟨none⟩ "/broken.html").2.2.1
    "<html>\x7b\x7b</html>" "template: unclosed action" (by decide) (by rfl)
  have h3 := (getTemplate_template_xor_error sampleIndexEnv ⟨none⟩ "/index.html").2.2.2
    "<html>trace:</html>" ⟨"<html>trace:</html>"⟩ (by decide) (by rfl)
  exact ⟨h1.1, h1.2.1, h2.2.1, h3.1⟩

/-- C10, refuted as stated. For an index request whose context holds no span and whose
template is missing from the bundle, getTemplate fails and the handler panics on the nil span
before reaching Execute: Execute is not called. -/
theorem index_template_failure_counterexample :
    (getTemplate emptyIndexEnv (indexRequest none).ctx "/index.html").err
        = some "file does not exist"
      ∧ executeCalls (index emptyIndexEnv ResponseWriter.fresh (indexRequest none)).ext = []
      ∧ (index emptyIndexEnv ResponseWriter.fresh (indexRequest none)).outcome
          = Outcome.panicked := by
  decide

/-- C10, amended: for every index request whose context holds a span and in which getTemplate
fails, the handler does not return early and writes nothing, so no error status, to the
response: it drops the error, builds the template context from the span and calls Execute
once, on the nil template it received; that call panics on the nil receiver. -/
theorem index_executes_nil_template (env : IndexEnv) (w : ResponseWriter) (r : Request)
    (sp : Span) (hspan : r.ctx.span = some sp)
    (hfail : (getTemplate env r.ctx "/index.html").err ≠ none) :
    executeCalls (index env w r).ext
        = [(none, match sp.Context with
            | SpanContext.jaeger traceID => [("traceID", env.TraceIDString traceID)]
            | SpanContext.foreign => [])]
      ∧ (index env w r).w = w
      ∧ (index env w r).logs = (getTemplate env r.ctx "/index.html").logs
      ∧ (index env w r).outcome = Outcome.panicked := by
  have hnil := getTemplate_tmpl_none_of_err env r.ctx "/index.html" hfail
  have hext := getTemplate_executeCalls env r.ctx "/index.html"
  have hidx := index_ext_of_span env w r sp hspan
  refine ⟨?_, ?_, ?_, ?_⟩
  · rw [hidx, hnil]
    simp only [executeCalls, List.filterMap_append] at hext ⊢
    rw [hext]
    cases sp.Context <;> simp [TmplCtx.set]
  · simp [index, SpanFromContext, hspan, hnil, Execute]
  · simp [index, SpanFromContext, hspan, hnil, Execute]
  · simp [index, SpanFromContext, hspan, hnil, Execute]

/-- Witness of the amended C10: a jaeger span and a bundle without the index page. -/
theorem index_executes_nil_template_witness :
    executeCalls (index emptyIndexEnv ResponseWriter.fresh
        (indexRequest (some ⟨SpanContext.jaeger ⟨0, 42⟩⟩))).ext = [(none, [("traceID", "42")])]
      ∧ (index emptyIndexEnv ResponseWriter.fresh
        (indexRequest (some ⟨SpanContext.jaeger ⟨0, 42⟩⟩))).w = ResponseWriter.fresh := by
  have h := index_executes_nil_template emptyIndexEnv ResponseWriter.fresh
    (indexRequest (some ⟨SpanContext.jaeger ⟨0, 42⟩⟩)) ⟨SpanContext.jaeger ⟨0, 42⟩⟩ rfl
    (by decide)
  exact ⟨h.1, h.2.1⟩

/-! ## Theorems: path.Clean and the routes -/

theorem length_dropWhile_le (p : Char → Bool) (l : List Char) :
    (l.dropWhile p).length ≤ l.length := by
  induction l with
  | nil => simp
  | cons a t ih =>
    simp only [List.dropWhile_cons]
    split
    · simp; omega
    · simp

/-- Fuel beyond the number of bytes left does not change the result of the loop. -/
theorem cleanLoop_fuel (rooted : Bool) (f1 : Nat) :
    ∀ (f2 : Nat) (rest rout : List Char) (dotdot : Nat),
      rest.length ≤ f1 → rest.length ≤ f2 →
      cleanLoop rooted f1 rest rout dotdot = cleanLoop rooted f2 rest rout dotdot := by
  induction f1 with
  | zero =>
    intro f2 rest rout dotdot h1 _
    have : rest = [] := by
      cases rest with
      | nil => rfl
      | cons a t => simp at h1
    subst this
    cases f2 <;> simp [cleanLoop]
  | succ k ih =>
    intro f2 rest rout dotdot h1 h2
    cases rest with
    | nil => cases f2 <;> simp [cleanLoop]
    | cons c rs =>
      cases f2 with
      | zero => simp at h2
      | succ m =>
        simp only [List.length_cons, Nat.add_le_add_iff_right] at h1 h2
        have ht1 : rs.tail.length ≤ k := by simp; omega
        have ht2 : rs.tail.length ≤ m := by simp; omega
        have hd1 := Nat.le_trans (length_dropWhile_le (fun x => x != '/') rs) h1
        have hd2 := Nat.le_trans (length_dropWhile_le (fun x => x != '/') rs) h2
        simp only [cleanLoop]
        split
        · exact ih m rs rout dotdot h1 h2
        · split
          · exact ih m rs rout dotdot h1 h2
          · split
            · split
              · exact ih m _ _ _ ht1 ht2
              · split
                · exact ih m _ _ _ ht1 ht2
                · exact ih m _ _ _ ht1 ht2
            · exact ih m _ _ _ hd1 hd2

theorem cleanLoop_eq_run (rooted : Bool) (fuel : Nat) (rest rout : List Char) (dotdot : Nat)
    (h : rest.length ≤ fuel) :
    cleanLoop rooted fuel rest rout dotdot = run rooted rest rout dotdot :=
  cleanLoop_fuel rooted fuel rest.length rest rout dotdot h (Nat.le_refl _)

theorem run_nil (rooted : Bool) (rout : List Char) (dotdot : Nat) :
    run rooted [] rout dotdot = rout := by
  simp [run, cleanLoop]

theorem run_cons (rooted : Bool) (c : Char) (rest rout : List Char) (dotdot : Nat) :
    run rooted (c :: rest) rout dotdot =
      if c = '/' then run rooted rest rout dotdot
      else if c = '.' ∧ (rest = [] ∨ rest.head? = some '/') then run rooted rest rout dotdot
      else if c = '.' ∧ rest.head? = some '.'
          ∧ (rest.tail = [] ∨ rest.tail.head? = some '/') then
        if rout.length > dotdot then run rooted rest.tail (backtrack dotdot rout) dotdot
        else if rooted = false then
          run rooted rest.tail
            ('.' :: '.' :: (if rout.length > 0 then '/' :: rout else rout))
            ('.' :: '.' :: (if rout.length > 0 then '/' :: rout else rout)).length
        else run rooted rest.tail rout dotdot
      else
        run rooted (rest.dropWhile (fun x => x != '/'))
          ((c :: rest.takeWhile (fun x => x != '/')).reverse
            ++ (if (rooted = true ∧ rout.length ≠ 1) ∨ (rooted = false ∧ rout.length ≠ 0) then
                  '/' :: rout
                else rout)) dotdot := by
  have ht : rest.tail.length ≤ rest.length := by simp
  have hd := length_dropWhile_le (fun x => x != '/') rest
  conv_lhs => unfold run
  simp only [List.length_cons, cleanLoop]
  split
  · exact cleanLoop_eq_run _ _ _ _ _ (Nat.le_refl _)
  · split
    · exact cleanLoop_eq_run _ _ _ _ _ (Nat.le_refl _)
    · split
      · split
        · exact cleanLoop_eq_run _ _ _ _ _ ht
        · split
          · exact cleanLoop_eq_run _ _ _ _ _ ht
          · exact cleanLoop_eq_run _ _ _ _ _ ht
      · exact cleanLoop_eq_run _ _ _ _ _ hd

theorem slashBottomed_ne_nil {rout : List Char} (h : slashBottomed rout) : rout ≠ [] := by
  cases rout with
  | nil => simp [slashBottomed] at h
  | cons a t => simp

theorem slashBottomed_length_one {rout : List Char} (h : slashBottomed rout)
    (hl : rout.length = 1) : rout = ['/'] := by
  match rout, h, hl with
  | [a], h, _ => simp [slashBottomed] at h; simp [h]

theorem slashBottomed_append (xs y : List Char) (hx : ∀ x ∈ xs, x ≠ '/')
    (hy : slashBottomed y) : slashBottomed (xs ++ y) := by
  induction xs with
  | nil => simpa using hy
  | cons a t ih =>
    have ht : ∀ x ∈ t, x ≠ '/' := fun x hx1 => hx x (List.mem_cons_of_mem _ hx1)
    have ha : a ≠ '/' := hx a (List.mem_cons_self _ _)
    have h1 := ih ht
    cases hty : t ++ y with
    | nil => rw [hty] at h1; simp [slashBottomed] at h1
    | cons b u =>
      rw [hty] at h1
      show slashBottomed (a :: (t ++ y))
      rw [hty]
      exact ⟨Or.inl ha, h1⟩

theorem rootedBuf_backtrack (rout : List Char) (h : slashBottomed rout)
    (hl : rout.length > 1) : RootedBuf (backtrack 1 rout) := by
  induction rout with
  | nil => simp at hl
  | cons c r ih =>
    cases r with
    | nil => simp at hl
    | cons b t =>
      have hbt : slashBottomed (b :: t) := h.2
      simp only [backtrack]
      by_cases hc : (b :: t).length > 1 ∧ c ≠ '/'
      · rw [if_pos hc]
        exact ih hbt hc.1
      · rw [if_neg hc]
        by_cases hlen : (b :: t).length > 1
        · have hc1 : c = '/' := by
            by_contra hne
            exact hc ⟨hlen, hne⟩
          have hb : b ≠ '/' := by
            rcases h.1 with h1 | h1
            · exact absurd hc1 h1
            · exact h1
          exact ⟨Or.inr (by simpa using hb), hbt⟩
        · have h1 : (b :: t).length = 1 := by
            simp at hlen ⊢
            exact hlen
          have := slashBottomed_length_one hbt h1
          exact ⟨Or.inl this, hbt⟩

theorem rootedBuf_push (rout comp : List Char) (h : RootedBuf rout) (hne : comp ≠ [])
    (hc : ∀ x ∈ comp, x ≠ '/') :
    RootedBuf (comp.reverse ++ (if rout.length ≠ 1 then '/' :: rout else rout)) := by
  have hrev : ∀ x ∈ comp.reverse, x ≠ '/' := fun x hx => hc x (List.mem_reverse.mp hx)
  have hrne : comp.reverse ≠ [] := by simpa using hne
  have hy : slashBottomed (if rout.length ≠ 1 then '/' :: rout else rout) := by
    split
    · rename_i hl
      cases hr : rout with
      | nil => rw [hr] at h; exact absurd h.2 (by simp [slashBottomed])
      | cons a t =>
        rw [hr] at h hl
        refine ⟨Or.inr ?_, h.2⟩
        rcases h.1 with h1 | h1
        · rw [h1] at hl; simp at hl
        · simpa using h1
    · exact h.2
  refine ⟨Or.inr ?_, slashBottomed_append _ _ hrev hy⟩
  cases hcr : comp.reverse with
  | nil => exact absurd hcr hrne
  | cons a t =>
    have : a ≠ '/' := hrev a (by rw [hcr]; exact List.mem_cons_self _ _)
    simpa using this

theorem rootedBuf_run (n : Nat) : ∀ (rest rout : List Char), rest.length ≤ n →
    RootedBuf rout → RootedBuf (run true rest rout 1) := by
  induction n with
  | zero =>
    intro rest rout hl h
    have : rest = [] := by
      cases rest with
      | nil => rfl
      | cons a t => simp at hl
    subst this
    rw [run_nil]; exact h
  | succ k ih =>
    intro rest rout hl h
    cases rest with
    | nil => rw [run_nil]; exact h
    | cons c rs =>
      simp only [List.length_cons, Nat.add_le_add_iff_right] at hl
      have ht : rs.tail.length ≤ k := by simp; omega
      have hd := Nat.le_trans (length_dropWhile_le (fun x => x != '/') rs) hl
      rw [run_cons]
      split
      · exact ih _ _ hl h
      · rename_i hslash
        split
        · exact ih _ _ hl h
        · split
          · split
            · rename_i hgt
              exact ih _ _ ht (rootedBuf_backtrack rout h.2 hgt)
            · split
              · rename_i hf; simp at hf
              · exact ih _ _ ht h
          · apply ih _ _ hd
            have hcomp : ∀ x ∈ c :: rs.takeWhile (fun x => x != '/'), x ≠ '/' := by
              intro x hx
              rcases List.mem_cons.mp hx with h1 | h1
              · rw [h1]; exact hslash
              · have := List.mem_takeWhile_imp h1
                simpa using this
            have := rootedBuf_push rout (c :: rs.takeWhile (fun x => x != '/')) h
              (by simp) hcomp
            simpa using this

theorem lookahead_slash (ps suf : List Char) :
    (ps ++ '/' :: suf = [] ∨ (ps ++ '/' :: suf).head? = some '/')
      ↔ (ps = [] ∨ ps.head? = some '/') := by
  cases ps <;> simp

theorem lookahead_dot (ps suf : List Char) :
    (ps ++ '/' :: suf).head? = some '.' ↔ ps.head? = some '.' := by
  cases ps with
  | nil => simp
  | cons a t => simp

theorem lookahead_tail (ps suf : List Char) (h : ps ≠ []) :
    (ps ++ '/' :: suf).tail = ps.tail ++ '/' :: suf := by
  cases ps with
  | nil => exact absurd rfl h
  | cons a t => simp

theorem takeWhile_append_slash (ps suf : List Char) :
    (ps ++ '/' :: suf).takeWhile (fun x => x != '/') = ps.takeWhile (fun x => x != '/') := by
  induction ps with
  | nil => simp
  | cons a t ih =>
    simp only [List.cons_append, List.takeWhile_cons]
    split
    · rw [ih]
    · rfl

theorem dropWhile_append_slash (ps suf : List Char) :
    (ps ++ '/' :: suf).dropWhile (fun x => x != '/')
      = ps.dropWhile (fun x => x != '/') ++ '/' :: suf := by
  induction ps with
  | nil => simp
  | cons a t ih =>
    simp only [List.cons_append, List.dropWhile_cons]
    split
    · rw [ih]
    · rfl

/-- Running the loop over a prefix that is followed by a slash leaves a state that does not
depend on what comes after the slash. -/
theorem run_prefix (rooted : Bool) (n : Nat) : ∀ (pre rout : List Char) (dotdot : Nat),
    pre.length ≤ n →
    ∃ (rout1 : List Char) (dotdot1 : Nat), ∀ suf : List Char,
      run rooted (pre ++ '/' :: suf) rout dotdot = run rooted suf rout1 dotdot1 := by
  induction n with
  | zero =>
    intro pre rout dotdot hl
    have : pre = [] := by
      cases pre with
      | nil => rfl
      | cons a t => simp at hl
    subst this
    exact ⟨rout, dotdot, fun suf => by rw [List.nil_append, run_cons, if_pos rfl]⟩
  | succ k ih =>
    intro pre rout dotdot hl
    cases pre with
    | nil => exact ⟨rout, dotdot, fun suf => by rw [List.nil_append, run_cons, if_pos rfl]⟩
    | cons c ps =>
      simp only [List.length_cons, Nat.add_le_add_iff_right] at hl
      by_cases h1 : c = '/'
      · obtain ⟨r1, d1, hr⟩ := ih ps rout dotdot hl
        exact ⟨r1, d1, fun suf => by rw [List.cons_append, run_cons, if_pos h1, hr]⟩
      · by_cases h2 : c = '.' ∧ (ps = [] ∨ ps.head? = some '/')
        · obtain ⟨r1, d1, hr⟩ := ih ps rout dotdot hl
          refine ⟨r1, d1, fun suf => ?_⟩
          rw [List.cons_append, run_cons, if_neg h1, if_pos, hr]
          exact ⟨h2.1, (lookahead_slash ps suf).mpr h2.2⟩
        · have h2n : ∀ suf : List Char, ¬ (c = '.'
              ∧ (ps ++ '/' :: suf = [] ∨ (ps ++ '/' :: suf).head? = some '/')) :=
            fun suf hh => h2 ⟨hh.1, (lookahead_slash ps suf).mp hh.2⟩
          by_cases h3 : c = '.' ∧ ps.head? = some '.'
              ∧ (ps.tail = [] ∨ ps.tail.head? = some '/')
          · have hne : ps ≠ [] := by
              intro he
              rw [he] at h3
              simp at h3
            have htl : ps.tail.length ≤ k := by simp; omega
            have h3p : ∀ suf : List Char, c = '.' ∧ (ps ++ '/' :: suf).head? = some '.'
                ∧ ((ps ++ '/' :: suf).tail = []
                  ∨ (ps ++ '/' :: suf).tail.head? = some '/') := by
              intro suf
              refine ⟨h3.1, (lookahead_dot ps suf).mpr h3.2.1, ?_⟩
              rw [lookahead_tail ps suf hne]
              exact (lookahead_slash ps.tail suf).mpr h3.2.2
            by_cases hg : rout.length > dotdot
            · obtain ⟨r1, d1, hr⟩ := ih ps.tail (backtrack dotdot rout) dotdot htl
              refine ⟨r1, d1, fun suf => ?_⟩
              rw [List.cons_append, run_cons, if_neg h1, if_neg (h2n suf), if_pos (h3p suf),
                if_pos hg, lookahead_tail ps suf hne, hr]
            · by_cases hro : rooted = false
              · obtain ⟨r1, d1, hr⟩ := ih ps.tail
                  ('.' :: '.' :: (if rout.length > 0 then '/' :: rout else rout))
                  ('.' :: '.' :: (if rout.length > 0 then '/' :: rout else rout)).length htl
                refine ⟨r1, d1, fun suf => ?_⟩
                rw [List.cons_append, run_cons, if_neg h1, if_neg (h2n suf),
                  if_pos (h3p suf), if_neg hg, if_pos hro, lookahead_tail ps suf hne, hr]
              · obtain ⟨r1, d1, hr⟩ := ih ps.tail rout dotdot htl
                refine ⟨r1, d1, fun suf => ?_⟩
                rw [List.cons_append, run_cons, if_neg h1, if_neg (h2n suf),
                  if_pos (h3p suf), if_neg hg, if_neg hro, lookahead_tail ps suf hne, hr]
          · have h3n : ∀ suf : List Char, ¬ (c = '.' ∧ (ps ++ '/' :: suf).head? = some '.'
                ∧ ((ps ++ '/' :: suf).tail = []
                  ∨ (ps ++ '/' :: suf).tail.head? = some '/')) := by
              intro suf hh
              apply h3
              have hd := (lookahead_dot ps suf).mp hh.2.1
              have hne : ps ≠ [] := by
                intro he
                rw [he] at hd
                simp at hd
              refine ⟨hh.1, hd, ?_⟩
              have ht := hh.2.2
              rw [lookahead_tail ps suf hne] at ht
              exact (lookahead_slash ps.tail suf).mp ht
            have hdl := Nat.le_trans (length_dropWhile_le (fun x => x != '/') ps) hl
            obtain ⟨r1, d1, hr⟩ := ih (ps.dropWhile (fun x => x != '/'))
              ((c :: ps.takeWhile (fun x => x != '/')).reverse
                ++ (if (rooted = true ∧ rout.length ≠ 1) ∨ (rooted = false ∧ rout.length ≠ 0)
                    then '/' :: rout else rout)) dotdot hdl
            refine ⟨r1, d1, fun suf => ?_⟩
            rw [List.cons_append, run_cons, if_neg h1, if_neg (h2n suf), if_neg (h3n suf),
              takeWhile_append_slash, dropWhile_append_slash, hr]

theorem slashBottomed_reverse (rout : List Char) (h : slashBottomed rout) :
    ∃ ps, rout.reverse = '/' :: ps := by
  induction rout with
  | nil => simp [slashBottomed] at h
  | cons a t ih =>
    cases t with
    | nil =>
      have : a = '/' := h
      exact ⟨[], by simp [this]⟩
    | cons b u =>
      obtain ⟨ps, hps⟩ := ih h.2
      exact ⟨ps ++ [a], by rw [List.reverse_cons, hps]; rfl⟩

/-- On a rooted path `path.Clean` returns the buffer of the loop started after the root. -/
theorem cleanChars_rooted (t : List Char) :
    cleanChars ('/' :: t) = (run true t ['/'] 1).reverse
      ∧ RootedBuf (run true t ['/'] 1) := by
  have hb : RootedBuf (run true t ['/'] 1) :=
    rootedBuf_run t.length t ['/'] (Nat.le_refl _) ⟨Or.inl rfl, rfl⟩
  refine ⟨?_, hb⟩
  have hne : (run true t ['/'] 1).length ≠ 0 := by
    intro h0
    exact slashBottomed_ne_nil hb.2 (List.length_eq_zero.mp h0)
  have hrun : cleanLoop true (t.length + 1) t ['/'] 1 = run true t ['/'] 1 :=
    cleanLoop_eq_run true _ t ['/'] 1 (Nat.le_succ _)
  simp [cleanChars, hrun, hne]

theorem run_dispatch (r1 : List Char) (d1 : Nat) :
    run true "/dispatch".data r1 d1
      = "dispatch".data.reverse ++ (if r1.length ≠ 1 then '/' :: r1 else r1) := by
  simp [run, cleanLoop]

theorem run_slash (r1 : List Char) (d1 : Nat) : run true "/".data r1 d1 = r1 := by
  simp [run, cleanLoop]

theorem Join_pair (p x : String) (hp : p ≠ "") :
    (Join [p, x]).data = cleanChars (p.data ++ '/' :: x.data) := by
  simp [Join, hp, stringsJoin, Clean, String.data_append]

/-- The two patterns joined onto a rooted prefix: the first is a rooted clean path, the
second is the first followed by `/dispatch`, without doubling the slash of the root. -/
theorem join_patterns (p : String) (ps : List Char) (hp : p.data = '/' :: ps) :
    (Join [p, "/"]).data.head? = some '/'
      ∧ (Join [p, "/"] = "/" ∨ (Join [p, "/"]).data.getLast? ≠ some '/')
      ∧ Join [p, "/dispatch"]
          = (if Join [p, "/"] = "/" then "/dispatch" else Join [p, "/"] ++ "/dispatch") := by
  have hne : p ≠ "" := by
    intro h
    rw [h] at hp
    simp at hp
  obtain ⟨r1, d1, hpre⟩ := run_prefix true ps.length ps ['/'] 1 (Nat.le_refl _)
  have hidx : (Join [p, "/"]).data = r1.reverse := by
    rw [Join_pair p "/" hne, hp, List.cons_append, (cleanChars_rooted _).1, hpre, run_slash]
  have hdsp : (Join [p, "/dispatch"]).data
      = (if r1.length ≠ 1 then '/' :: r1 else r1).reverse ++ "dispatch".data := by
    rw [Join_pair p "/dispatch" hne, hp, List.cons_append, (cleanChars_rooted _).1, hpre,
      run_dispatch]
    simp
  have hbuf : RootedBuf r1 := by
    have := (cleanChars_rooted (ps ++ '/' :: "/".data)).2
    rwa [hpre, run_slash] at this
  have hroot : Join [p, "/"] = "/" ↔ r1.length = 1 := by
    constructor
    · intro h
      have h1 : r1.reverse = ['/'] := by rw [← hidx, h]
      have h2 := congrArg List.length h1
      simpa using h2
    · intro h
      have h1 := slashBottomed_length_one hbuf.2 h
      apply String.ext
      rw [hidx, h1]
      rfl
  refine ⟨?_, ?_, ?_⟩
  · obtain ⟨qs, hqs⟩ := slashBottomed_reverse r1 hbuf.2
    rw [hidx, hqs]
    rfl
  · rcases hbuf.1 with h1 | h1
    · left
      apply String.ext
      rw [hidx, h1]
      rfl
    · right
      rw [hidx, List.getLast?_reverse]
      exact h1
  · apply String.ext
    by_cases hl : r1.length = 1
    · rw [if_pos (hroot.mpr hl), hdsp, if_neg (by simpa using hl),
        slashBottomed_length_one hbuf.2 hl]
      rfl
    · rw [if_neg (fun h => hl (hroot.mp h)), hdsp, if_pos hl, String.data_append, hidx]
      simp

/-- The rooted prefix `path.Join("/", basepath)` of the routes starts with a slash. -/
theorem join_root_basepath (basepath : String) :
    ∃ ps, (Join ["/", basepath]).data = '/' :: ps := by
  have hj : (Join ["/", basepath]).data = cleanChars ('/' :: '/' :: basepath.data) := by
    rw [Join_pair "/" basepath (by decide)]
    rfl
  obtain ⟨ps, hps⟩ := slashBottomed_reverse _ (cleanChars_rooted ('/' :: basepath.data)).2.2
  exact ⟨ps, by rw [hj, (cleanChars_rooted _).1, hps]⟩

/-- C6, refuted as stated. With the base path /hotrod the index handler is registered at
/hotrod, not at the base path prefix followed by a slash, /hotrod/: path.Join cleans the
joined path and drops the trailing slash. -/
theorem createServeMux_index_pattern_counterexample :
    createServeMux ⟨":8080", "/hotrod"⟩
        = [("/hotrod", Handler.index), ("/hotrod/dispatch", Handler.dispatch)]
      ∧ ("/hotrod" ++ "/", Handler.index) ∉ createServeMux ⟨":8080", "/hotrod"⟩
      ∧ (Join ["/", "/hotrod"] ++ "/", Handler.index) ∉ createServeMux ⟨":8080", "/hotrod"⟩ := by
  decide

/-- C6, amended: for every base path, createServeMux registers exactly two routes, the index
handler at path.Join(p, "/") and the dispatch handler at path.Join(p, "/dispatch"), where p is
path.Join("/", basepath). The index pattern is a cleaned rooted path: it starts with a slash
and does not end in one unless it is the root; the dispatch pattern is the index pattern
followed by /dispatch (just /dispatch when the index pattern is the root); the two patterns
are distinct. -/
theorem createServeMux_routes (s : Server) :
    ∃ idx dsp : String,
      createServeMux s = [(idx, Handler.index), (dsp, Handler.dispatch)]
        ∧ idx = Join [Join ["/", s.basepath], "/"]
        ∧ dsp = Join [Join ["/", s.basepath], "/dispatch"]
        ∧ idx.data.head? = some '/'
        ∧ (idx = "/" ∨ idx.data.getLast? ≠ some '/')
        ∧ dsp = (if idx = "/" then "/dispatch" else idx ++ "/dispatch")
        ∧ idx ≠ dsp := by
  obtain ⟨ps, hps⟩ := join_root_basepath s.basepath
  obtain ⟨h1, h2, h3⟩ := join_patterns (Join ["/", s.basepath]) ps hps
  refine ⟨Join [Join ["/", s.basepath], "/"], Join [Join ["/", s.basepath], "/dispatch"],
    rfl, rfl, rfl, h1, h2, h3, ?_⟩
  intro heq
  rw [h3] at heq
  have hlen := congrArg String.length heq
  split at hlen
  · rename_i hroot
    rw [hroot] at hlen
    revert hlen
    decide
  · rw [String.length_append] at hlen
    have : "/dispatch".length = 9 := by decide
    omega

end Hotrod
